import Mathlib

/-!
Verification of the libXISF serialization engine against its specification.

The C++ sources under src/ are shallowly embedded: bytes are natural numbers
below 256, byte buffers are lists, machine integers are naturals with explicit
reductions where overflow matters, and functions that may throw return
`Except String`.  Each definition mirrors one function of the sources
(file and line references are given in the doc comments).
-/

namespace LibXISF

set_option maxHeartbeats 1000000

/-- Byte-shuffling transform of `byteShuffle`, src/libxisf.cpp lines 84-101.
For `itemSize > 1` the input is viewed as `num = n / itemSize` records of
`itemSize` bytes each; byte `i` of record `o` is written to output position
`i * num + o` (all byte-0s first, then all byte-1s, ...), and the trailing
`n % itemSize` bytes are copied verbatim after the shuffled region.
For `itemSize ≤ 1` the function leaves the buffer untouched. -/
def byteShuffle (data : List Nat) (itemSize : Nat) : List Nat :=
  if itemSize ≤ 1 then data
  else
    (List.range (data.length / itemSize * itemSize)).map
      (fun k => data.getD ((k % (data.length / itemSize)) * itemSize
                           + k / (data.length / itemSize)) 0)
    ++ data.drop (data.length / itemSize * itemSize)

/-- Inverse byte-shuffling transform of `byteUnshuffle`, src/libxisf.cpp lines
103-120.  Output position `o * itemSize + i` receives input byte `i * num + o`;
the trailing `n % itemSize` bytes are copied verbatim. -/
def byteUnshuffle (data : List Nat) (itemSize : Nat) : List Nat :=
  if itemSize ≤ 1 then data
  else
    (List.range (data.length / itemSize * itemSize)).map
      (fun j => data.getD ((j % itemSize) * (data.length / itemSize)
                           + j / itemSize) 0)
    ++ data.drop (data.length / itemSize * itemSize)

theorem byteShuffle_length (x : List Nat) (s : Nat) :
    (byteShuffle x s).length = x.length := by
  unfold byteShuffle
  split
  · rfl
  · have h := Nat.div_mul_le_self x.length s
    simp only [List.length_append, List.length_map, List.length_range,
      List.length_drop]
    omega

theorem byteUnshuffle_length (x : List Nat) (s : Nat) :
    (byteUnshuffle x s).length = x.length := by
  unfold byteUnshuffle
  split
  · rfl
  · have h := Nat.div_mul_le_self x.length s
    simp only [List.length_append, List.length_map, List.length_range,
      List.length_drop]
    omega

theorem byteShuffle_getD (x : List Nat) (s : Nat) (h2 : ¬ s ≤ 1) (k : Nat) :
    (byteShuffle x s).getD k 0 =
      if k < x.length / s * s then
        x.getD ((k % (x.length / s)) * s + k / (x.length / s)) 0
      else x.getD k 0 := by
  unfold byteShuffle
  rw [if_neg h2, List.getD_eq_getElem?_getD]
  by_cases hk : k < x.length / s * s
  · rw [if_pos hk, List.getElem?_append_left (by simpa using hk),
      List.getElem?_map, List.getElem?_range hk]
    simp [List.getD_eq_getElem?_getD]
  · rw [if_neg hk]
    push_neg at hk
    rw [List.getElem?_append_right (by simpa using hk)]
    simp only [List.length_map, List.length_range]
    rw [List.getElem?_drop,
      show x.length / s * s + (k - x.length / s * s) = k from by omega,
      List.getD_eq_getElem?_getD]

theorem byteUnshuffle_getD (x : List Nat) (s : Nat) (h2 : ¬ s ≤ 1) (j : Nat) :
    (byteUnshuffle x s).getD j 0 =
      if j < x.length / s * s then
        x.getD ((j % s) * (x.length / s) + j / s) 0
      else x.getD j 0 := by
  unfold byteUnshuffle
  rw [if_neg h2, List.getD_eq_getElem?_getD]
  by_cases hj : j < x.length / s * s
  · rw [if_pos hj, List.getElem?_append_left (by simpa using hj),
      List.getElem?_map, List.getElem?_range hj]
    simp [List.getD_eq_getElem?_getD]
  · rw [if_neg hj]
    push_neg at hj
    rw [List.getElem?_append_right (by simpa using hj)]
    simp only [List.length_map, List.length_range]
    rw [List.getElem?_drop,
      show x.length / s * s + (j - x.length / s * s) = j from by omega,
      List.getD_eq_getElem?_getD]

/-- C6: byte-shuffle round-trip.  For every byte string `x` and every item size
`s ≥ 1`, `byteUnshuffle (byteShuffle x s) s = x`; the forward transform places
byte `i` of record `o` at position `i * num + o` (all byte-0s of the `⌊n/s⌋`
records contiguously, then all byte-1s, ...) and copies the trailing `n % s`
bytes verbatim after the shuffled region. -/
theorem byteShuffle_roundtrip (x : List Nat) (s : Nat) (h : 1 ≤ s) :
    byteUnshuffle (byteShuffle x s) s = x ∧
    (∀ i o, i < s → o < x.length / s →
      (byteShuffle x s).getD (i * (x.length / s) + o) 0 = x.getD (o * s + i) 0) ∧
    (∀ j, x.length / s * s ≤ j → (byteShuffle x s).getD j 0 = x.getD j 0) := by
  by_cases h1 : s ≤ 1
  · have hs : s = 1 := by omega
    subst hs
    have hid : byteShuffle x 1 = x := by unfold byteShuffle; simp
    have hid2 : byteUnshuffle x 1 = x := by unfold byteUnshuffle; simp
    refine ⟨by rw [hid, hid2], ?_, ?_⟩
    · intro i o hi ho
      have hi0 : i = 0 := by omega
      subst hi0
      simp [hid]
    · intro j _
      simp [hid]
  · -- the genuine transpose case, s ≥ 2
    have hslen : (byteShuffle x s).length = x.length := byteShuffle_length x s
    have hle : x.length / s * s ≤ x.length := Nat.div_mul_le_self x.length s
    refine ⟨?_, ?_, ?_⟩
    · apply List.ext_getElem
      · rw [byteUnshuffle_length, hslen]
      · intro j hj1 hj2
        rw [← List.getD_eq_getElem _ 0 hj1, ← List.getD_eq_getElem _ 0 hj2]
        rw [byteUnshuffle_getD _ _ h1, hslen]
        by_cases hj : j < x.length / s * s
        · rw [if_pos hj, byteShuffle_getD _ _ h1]
          have hq0 : 0 < x.length / s := by
            rcases Nat.eq_zero_or_pos (x.length / s) with h0 | h0
            · rw [h0] at hj; simp at hj
            · exact h0
          have hjs : j / s < x.length / s :=
            (Nat.div_lt_iff_lt_mul (by omega : 0 < s)).2 hj
          have hms : j % s < s := Nat.mod_lt _ (by omega)
          have hsub : (s - 1) * (x.length / s) = s * (x.length / s) - x.length / s :=
            Nat.sub_one_mul s (x.length / s)
          have hql : x.length / s ≤ s * (x.length / s) :=
            Nat.le_mul_of_pos_left _ (by omega)
          have hcomm : x.length / s * s = s * (x.length / s) :=
            Nat.mul_comm _ _
          have hmono : j % s * (x.length / s) ≤ (s - 1) * (x.length / s) :=
            Nat.mul_le_mul_right _ (by omega)
          have hmod : j % s * (x.length / s) + j / s < x.length / s * s := by
            omega
          rw [if_pos hmod]
          have e1 : (j % s * (x.length / s) + j / s) % (x.length / s) = j / s := by
            rw [Nat.mul_comm (j % s) (x.length / s), Nat.mul_add_mod]
            exact Nat.mod_eq_of_lt hjs
          have e2 : (j % s * (x.length / s) + j / s) / (x.length / s) = j % s := by
            rw [Nat.mul_comm (j % s) (x.length / s), Nat.mul_add_div hq0,
              Nat.div_eq_of_lt hjs]
            omega
          rw [e1, e2]
          have hdm := Nat.div_add_mod j s
          have hc : j / s * s = s * (j / s) := Nat.mul_comm _ _
          rw [show j / s * s + j % s = j from by omega]
        · rw [if_neg hj, byteShuffle_getD _ _ h1, if_neg hj]
    · intro i o hi ho
      have hq0 : 0 < x.length / s := by omega
      rw [byteShuffle_getD _ _ h1]
      have hsub : (s - 1) * (x.length / s) = s * (x.length / s) - x.length / s :=
        Nat.sub_one_mul s (x.length / s)
      have hql : x.length / s ≤ s * (x.length / s) :=
        Nat.le_mul_of_pos_left _ (by omega)
      have hcomm : x.length / s * s = s * (x.length / s) := Nat.mul_comm _ _
      have hmono : i * (x.length / s) ≤ (s - 1) * (x.length / s) :=
        Nat.mul_le_mul_right _ (by omega)
      have hlt : i * (x.length / s) + o < x.length / s * s := by omega
      rw [if_pos hlt]
      have e1 : (i * (x.length / s) + o) % (x.length / s) = o := by
        rw [Nat.mul_comm i (x.length / s), Nat.mul_add_mod]
        exact Nat.mod_eq_of_lt ho
      have e2 : (i * (x.length / s) + o) / (x.length / s) = i := by
        rw [Nat.mul_comm i (x.length / s), Nat.mul_add_div hq0,
          Nat.div_eq_of_lt ho]
        omega
      rw [e1, e2]
    · intro j hj
      rw [byteShuffle_getD _ _ h1, if_neg (by omega : ¬ j < x.length / s * s)]

/-- Witness for C6 at `x = [1, 2, 3, 4, 5]`, `s = 2`. -/
theorem byteShuffle_roundtrip_witness :
    byteUnshuffle (byteShuffle [1, 2, 3, 4, 5] 2) 2 = [1, 2, 3, 4, 5] :=
  (byteShuffle_roundtrip [1, 2, 3, 4, 5] 2 (by decide)).1

/-! ### ByteArray reference sharing (src/bytearray.cpp) -/

/-- Heap model for `ByteArray` (src/bytearray.cpp): the payload vector lives in
a reference-counted cell shared between handles.  `cells` holds the payload of
every allocated cell; `handles` maps each live `ByteArray` object to its cell
index.  `std::shared_ptr::unique()` is true exactly when the pointed-to cell is
referenced by one handle. -/
structure ByteArrayHeap where
  cells : List (List Nat)
  handles : List Nat
deriving DecidableEq

/-- The bytes observable through handle `h`. -/
def obs (st : ByteArrayHeap) (h : Nat) : List Nat :=
  st.cells.getD (st.handles.getD h 0) []

/-- Copy constructor `ByteArray(const ByteArray &d)`, src/bytearray.cpp lines
28-31: `_data = d._data`, so the new handle shares the payload cell. -/
def baCopy (st : ByteArrayHeap) (h : Nat) : ByteArrayHeap :=
  { st with handles := st.handles ++ [st.handles.getD h 0] }

/-- `ByteArray::makeUnique`, src/bytearray.cpp lines 6-10: when the payload is
shared (`!_data.unique()`), the handle is repointed at a fresh copy. -/
def makeUnique (st : ByteArrayHeap) (h : Nat) : ByteArrayHeap :=
  if st.handles.count (st.handles.getD h 0) = 1 then st
  else { cells := st.cells ++ [st.cells.getD (st.handles.getD h 0) []],
         handles := st.handles.set h st.cells.length }

/-- `ByteArray::resize`, src/bytearray.cpp lines 49-53: `makeUnique()` followed
by `_data->resize(n)` (`std::vector::resize` truncates or zero-pads). -/
def baResize (st : ByteArrayHeap) (h n : Nat) : ByteArrayHeap :=
  let st1 := makeUnique st h
  let c := st1.handles.getD h 0
  let old := st1.cells.getD c []
  { st1 with cells := st1.cells.set c (old.take n ++ List.replicate (n - old.length) 0) }

/-- `ByteArray::append`, src/bytearray.cpp lines 55-58: a bare
`_data->push_back(c)` with no call to `makeUnique`. -/
def baAppend (st : ByteArrayHeap) (h b : Nat) : ByteArrayHeap :=
  let c := st.handles.getD h 0
  { st with cells := st.cells.set c ((st.cells.getD c []) ++ [b]) }

/-- Non-const `ByteArray::operator[]`, src/bytearray.cpp lines 33-37:
`makeUnique()` before the element reference is handed out for assignment. -/
def baWriteIdx (st : ByteArrayHeap) (h i b : Nat) : ByteArrayHeap :=
  let st1 := makeUnique st h
  let c := st1.handles.getD h 0
  { st1 with cells := st1.cells.set c ((st1.cells.getD c []).set i b) }

/-- C5: evaluation of the aliasing scenario.  With `a` the ByteArray at handle
0 holding `[5]` and `b` a copy of `a` (handle 1, payload shared), `resize` and
an index write on `b` copy the shared payload first and leave `a` unchanged,
but `b.append 7` mutates the shared cell in place, so the bytes observable
through `a` become `[5, 7]` — contradicting the claim that every mutating
operation (including `append`) leaves `a` unchanged. -/
theorem byteArray_append_mutates_alias :
    obs (⟨[[5]], [0]⟩ : ByteArrayHeap) 0 = [5] ∧
    obs (baResize (baCopy ⟨[[5]], [0]⟩ 0) 1 3) 0 = [5] ∧
    obs (baWriteIdx (baCopy ⟨[[5]], [0]⟩ 0) 1 0 9) 0 = [5] ∧
    obs (baAppend (baCopy ⟨[[5]], [0]⟩ 0) 1 7) 0 = [5, 7] := by
  decide

/-! ### Variant type-name tables (src/variant.cpp) -/

/-- The discriminators of `Variant::Type`, src/libxisf.h lines 146-152. -/
inductive VariantType where
  | Monostate | Boolean
  | Int8 | UInt8 | Int16 | UInt16 | Int32 | UInt32 | Int64 | UInt64
  | Float32 | Float64 | Complex32 | Complex64 | String | TimePoint
  | I8Vector | UI8Vector | I16Vector | UI16Vector
  | I32Vector | UI32Vector | I64Vector | UI64Vector
  | F32Vector | F64Vector | C32Vector | C64Vector
  | I8Matrix | UI8Matrix | I16Matrix | UI16Matrix
  | I32Matrix | UI32Matrix | I64Matrix | UI64Matrix
  | F32Matrix | F64Matrix | C32Matrix | C64Matrix
deriving DecidableEq

/-- The name→id table `typeToId`, src/variant.cpp lines 30-71, as a lookup;
`none` models the absence of the key. -/
def typeToIdLookup (s : String) : Option VariantType :=
  if s = "Monostate" then some .Monostate
  else if s = "Boolean" then some .Boolean
  else if s = "Int8" then some .Int8
  else if s = "UInt8" then some .UInt8
  else if s = "Int16" then some .Int16
  else if s = "UInt16" then some .UInt16
  else if s = "Int32" then some .Int32
  else if s = "UInt32" then some .UInt32
  else if s = "Int64" then some .Int64
  else if s = "UInt64" then some .UInt64
  else if s = "Float32" then some .Float32
  else if s = "Float64" then some .Float64
  else if s = "Complex32" then some .Complex32
  else if s = "Complex64" then some .Complex64
  else if s = "String" then some .String
  else if s = "TimePoint" then some .TimePoint
  else if s = "I8Vector" then some .I8Vector
  else if s = "UI8Vector" then some .UI8Vector
  else if s = "I16Vector" then some .I16Vector
  else if s = "UI16Vector" then some .UI16Vector
  else if s = "I32Vector" then some .I32Vector
  else if s = "UI32Vector" then some .UI32Vector
  else if s = "I64Vector" then some .I64Vector
  else if s = "UI64Vector" then some .UI64Vector
  else if s = "F32Vector" then some .F32Vector
  else if s = "F64Vector" then some .F64Vector
  else if s = "C32Vector" then some .C32Vector
  else if s = "C64Vector" then some .C64Vector
  else if s = "I8Matrix" then some .I8Matrix
  else if s = "UI8Matrix" then some .UI8Matrix
  else if s = "I16Matrix" then some .I16Matrix
  else if s = "UI16Matrix" then some .UI16Matrix
  else if s = "I32Matrix" then some .I32Matrix
  else if s = "UI32Matrix" then some .UI32Matrix
  else if s = "I64Matrix" then some .I64Matrix
  else if s = "UI64Matrix" then some .UI64Matrix
  else if s = "F32Matrix" then some .F32Matrix
  else if s = "F64Matrix" then some .F64Matrix
  else if s = "C32Matrix" then some .C32Matrix
  else if s = "C64Matrix" then some .C64Matrix
  else none

/-- The id→name table `idToType`, src/variant.cpp lines 73-112, exactly as in
the source: the entries for `F32Matrix` and `F64Matrix` map to `"I8Matrix"`
and `"UI8Matrix"`, and `C32Matrix`/`C64Matrix` have no entry. -/
def idToType : VariantType → Option String
  | .Monostate => some "Monostate"
  | .Boolean => some "Boolean"
  | .Int8 => some "Int8"
  | .UInt8 => some "UInt8"
  | .Int16 => some "Int16"
  | .UInt16 => some "UInt16"
  | .Int32 => some "Int32"
  | .UInt32 => some "UInt32"
  | .Int64 => some "Int64"
  | .UInt64 => some "UInt64"
  | .Float32 => some "Float32"
  | .Float64 => some "Float64"
  | .Complex32 => some "Complex32"
  | .Complex64 => some "Complex64"
  | .String => some "String"
  | .TimePoint => some "TimePoint"
  | .I8Vector => some "I8Vector"
  | .UI8Vector => some "UI8Vector"
  | .I16Vector => some "I16Vector"
  | .UI16Vector => some "UI16Vector"
  | .I32Vector => some "I32Vector"
  | .UI32Vector => some "UI32Vector"
  | .I64Vector => some "I64Vector"
  | .UI64Vector => some "UI64Vector"
  | .F32Vector => some "F32Vector"
  | .F64Vector => some "F64Vector"
  | .C32Vector => some "C32Vector"
  | .C64Vector => some "C64Vector"
  | .I8Matrix => some "I8Matrix"
  | .UI8Matrix => some "UI8Matrix"
  | .I16Matrix => some "I16Matrix"
  | .UI16Matrix => some "UI16Matrix"
  | .I32Matrix => some "I32Matrix"
  | .UI32Matrix => some "UI32Matrix"
  | .I64Matrix => some "I64Matrix"
  | .UI64Matrix => some "UI64Matrix"
  | .F32Matrix => some "I8Matrix"
  | .F64Matrix => some "UI8Matrix"
  | .C32Matrix => none
  | .C64Matrix => none

/-- Tag-level model of `Variant` (src/libxisf.h lines 138-165).  The claims
below depend only on the discriminator returned by `Variant::type()`. -/
structure Variant where
  type : VariantType
deriving DecidableEq

/-- `Variant::typeName`, src/variant.cpp lines 380-386: the mapped name, or
`""` when the tag has no entry in `idToType`. -/
def Variant.typeName (v : Variant) : String :=
  (idToType v.type).getD ""

/-- The type-id resolution at the head of `deserializeVariant`, src/variant.cpp
lines 191-194: `typeToId[type]` on a non-const `std::map` default-constructs a
`Monostate` entry for an unknown name. -/
def deserializeTypeId (s : String) : VariantType :=
  (typeToIdLookup s).getD .Monostate

/-- C2: evaluation of the matrix type-name round-trip at `F32Matrix` and
`F64Matrix`.  `serializeVariant` (src/variant.cpp line 279) writes the `type`
attribute from `Variant::typeName`, which maps `F32Matrix` to `"I8Matrix"` and
`F64Matrix` to `"UI8Matrix"`; deserializing those names reconstructs `I8Matrix`
and `UI8Matrix` values, not the original matrix types — contradicting the
claim that the names `"I8Matrix"`/`"UI8Matrix"` are never emitted for them. -/
theorem matrix_typeName_defect :
    Variant.typeName ⟨.F32Matrix⟩ = "I8Matrix" ∧
    Variant.typeName ⟨.F64Matrix⟩ = "UI8Matrix" ∧
    deserializeTypeId (Variant.typeName ⟨.F32Matrix⟩) = .I8Matrix ∧
    deserializeTypeId (Variant.typeName ⟨.F64Matrix⟩) = .UI8Matrix ∧
    Variant.typeName ⟨.F32Matrix⟩ ≠ "F32Matrix" ∧
    Variant.typeName ⟨.F64Matrix⟩ ≠ "F64Matrix" := by
  refine ⟨rfl, rfl, rfl, rfl, by decide, by decide⟩

/-! ### Image property table (src/libxisf.cpp lines 408-428) -/

/-- A property of an `Image` (src/libxisf.h lines 188-201). -/
structure Property where
  id : String
  value : Variant
  comment : String := ""
deriving DecidableEq

/-- The property state of an `Image`: the insertion-ordered `_properties`
vector and the `_propertiesId` map from id to position (src/libxisf.h lines
343-344).  `std::map` stores its entries sorted by key; it is modelled as an
association list, whose lookup agrees with the map's for the unique keys the
class maintains. -/
structure PropertyTable where
  properties : List Property
  propertiesId : List (String × Nat)
deriving DecidableEq

/-- `Image::addProperty`, src/libxisf.cpp lines 413-420.  The C++ method throws
`Error("Duplicate property id")` before any mutation, so the error case
returns the unchanged table paired with the message. -/
def addProperty (t : PropertyTable) (p : Property) : PropertyTable × Option String :=
  if (t.propertiesId.lookup p.id).isSome then
    (t, some "Duplicate property id")
  else
    ({ properties := t.properties ++ [p],
       propertiesId := t.propertiesId ++ [(p.id, t.properties.length)] }, none)

/-- `Image::updateProperty`, src/libxisf.cpp lines 422-428: insert when the id
is absent, otherwise overwrite the entry at the recorded position. -/
def updateProperty (t : PropertyTable) (p : Property) : PropertyTable × Option String :=
  match t.propertiesId.lookup p.id with
  | none => addProperty t p
  | some i => ({ t with properties := t.properties.set i p }, none)

/-- The contents `_propertiesId` holds for a given property list under the
class invariant: each id paired with its position (offset by `n`). -/
def canonicalIndex : List Property → Nat → List (String × Nat)
  | [], _ => []
  | p :: rest, n => (p.id, n) :: canonicalIndex rest (n + 1)

/-- Class invariant of the property table: ids are unique and `_propertiesId`
is the id→position map of `_properties`. -/
def TableWF (t : PropertyTable) : Prop :=
  (t.properties.map Property.id).Nodup ∧
  t.propertiesId = canonicalIndex t.properties 0

theorem lookup_canonical_isSome (props : List Property) (n : Nat) (id : String) :
    ((canonicalIndex props n).lookup id).isSome ↔ id ∈ props.map Property.id := by
  induction props generalizing n with
  | nil => simp [canonicalIndex]
  | cons p rest ih =>
    simp only [canonicalIndex, List.lookup, List.map_cons, List.mem_cons]
    by_cases hpe : id = p.id
    · have hbeq : (id == p.id) = true := by simpa using hpe
      rw [hbeq]
      simp [hpe]
    · have hbeq : (id == p.id) = false := by simpa using hpe
      rw [hbeq]
      simp only [ih]
      constructor
      · intro hmem; exact Or.inr hmem
      · intro hmem
        rcases hmem with heq | hmem
        · exact absurd heq hpe
        · exact hmem

theorem lookup_canonical_some (props : List Property) (n : Nat) (id : String)
    (j : Nat) (hl : (canonicalIndex props n).lookup id = some j) :
    n ≤ j ∧ ∃ hj : j - n < props.length, props[j - n].id = id := by
  induction props generalizing n with
  | nil => simp [canonicalIndex, List.lookup] at hl
  | cons p rest ih =>
    simp only [canonicalIndex, List.lookup] at hl
    by_cases hpe : id = p.id
    · have hbeq : (id == p.id) = true := by simpa using hpe
      rw [hbeq] at hl
      have hj : j = n := by simpa using hl.symm
      subst hj
      refine ⟨Nat.le_refl _, ?_⟩
      have h0 : j - j = 0 := by omega
      refine ⟨by simp [h0], ?_⟩
      simp [h0, hpe.symm]
    · have hbeq : (id == p.id) = false := by simpa using hpe
      rw [hbeq] at hl
      obtain ⟨hn1, hjlt, hid⟩ := ih (n + 1) hl
      refine ⟨by omega, ?_⟩
      have hidx : j - n = (j - (n + 1)) + 1 := by omega
      have hjn : j - n < (p :: rest).length := by simp; omega
      refine ⟨hjn, ?_⟩
      have hcons : (p :: rest)[j - n] = rest[j - (n + 1)] := by
        rw [List.getElem_cons]
        split
        · omega
        · congr 1
      rw [hcons, hid]

/-- C8: duplicate-property handling.  For every well-formed table,
`addProperty` with an id already present fails with the duplicate-id error and
returns the table unchanged, while `updateProperty` always succeeds and leaves
exactly one entry carrying that id. -/
theorem property_table_duplicate (t : PropertyTable) (p : Property)
    (hwf : TableWF t) :
    ((∃ q ∈ t.properties, q.id = p.id) →
      addProperty t p = (t, some "Duplicate property id")) ∧
    (updateProperty t p).2 = none ∧
    (((updateProperty t p).1.properties.map Property.id).count p.id = 1) := by
  obtain ⟨hnd, hidx⟩ := hwf
  have hmm : ((t.propertiesId.lookup p.id).isSome) ↔
      p.id ∈ t.properties.map Property.id := by
    rw [hidx]; exact lookup_canonical_isSome t.properties 0 p.id
  refine ⟨?_, ?_, ?_⟩
  · intro hex
    have hmem : p.id ∈ t.properties.map Property.id := by
      rw [List.mem_map]
      obtain ⟨q, hq, hqid⟩ := hex
      exact ⟨q, hq, hqid⟩
    unfold addProperty
    rw [if_pos (hmm.2 hmem)]
  · unfold updateProperty
    cases hc : t.propertiesId.lookup p.id with
    | none =>
      simp only []
      unfold addProperty
      rw [if_neg (by simp [hc])]
    | some i => simp
  · unfold updateProperty
    cases hc : t.propertiesId.lookup p.id with
    | none =>
      have hno : p.id ∉ t.properties.map Property.id := by
        intro hmem
        have := hmm.2 hmem
        rw [hc] at this
        simp at this
      simp only []
      unfold addProperty
      rw [if_neg (by simp [hc])]
      simp only [List.map_append, List.count_append]
      rw [List.count_eq_zero.2 hno]
      simp [List.count_singleton]
    | some i =>
      rw [hidx] at hc
      obtain ⟨-, hlt, hid⟩ := lookup_canonical_some t.properties 0 p.id i hc
      simp only [Nat.sub_zero] at hlt hid
      simp only []
      rw [List.map_set]
      have hset : (t.properties.map Property.id).set i p.id
          = t.properties.map Property.id := by
        apply List.ext_getElem
        · simp
        · intro k hk1 hk2
          rw [List.getElem_set]
          split
          · rename_i hik
            subst hik
            rw [List.getElem_map]
            exact hid.symm
          · rfl
      rw [hset]
      exact List.count_eq_one_of_mem hnd
        (by rw [List.mem_map]; exact ⟨t.properties[i], by simp, hid⟩)

/-- Witness for C8 at a one-entry table and a property reusing id "Alpha". -/
theorem property_table_duplicate_witness :
    addProperty ⟨[⟨"Alpha", ⟨.Boolean⟩, ""⟩], [("Alpha", 0)]⟩
        ⟨"Alpha", ⟨.Int32⟩, ""⟩
      = (⟨[⟨"Alpha", ⟨.Boolean⟩, ""⟩], [("Alpha", 0)]⟩,
         some "Duplicate property id") ∧
    (updateProperty ⟨[⟨"Alpha", ⟨.Boolean⟩, ""⟩], [("Alpha", 0)]⟩
        ⟨"Alpha", ⟨.Int32⟩, ""⟩).2 = none ∧
    (((updateProperty ⟨[⟨"Alpha", ⟨.Boolean⟩, ""⟩], [("Alpha", 0)]⟩
        ⟨"Alpha", ⟨.Int32⟩, ""⟩).1.properties.map Property.id).count "Alpha"
      = 1) := by
  have h := property_table_duplicate
    ⟨[⟨"Alpha", ⟨.Boolean⟩, ""⟩], [("Alpha", 0)]⟩
    ⟨"Alpha", ⟨.Int32⟩, ""⟩
    ⟨by decide, rfl⟩
  exact ⟨h.1 ⟨⟨"Alpha", ⟨.Boolean⟩, ""⟩, by simp, rfl⟩, h.2.1, h.2.2⟩

/-! ### Pixel storage conversion (src/libxisf.cpp lines 295-313, 502-547) -/

/-- `Image::SampleFormat`, src/libxisf.h lines 258-268. -/
inductive SampleFormat where
  | UInt8 | UInt16 | UInt32 | UInt64 | Float32 | Float64 | Complex32 | Complex64
deriving DecidableEq

/-- `Image::PixelStorage`, src/libxisf.h lines 253-257. -/
inductive PixelStorage where
  | Planar | Normal
deriving DecidableEq

/-- `Image::sampleFormatSize`, src/libxisf.cpp lines 597-611. -/
def sampleFormatSize : SampleFormat → Nat
  | .UInt8 => 1
  | .UInt16 => 2
  | .UInt32 => 4
  | .UInt64 => 8
  | .Float32 => 4
  | .Float64 => 8
  | .Complex32 => 8
  | .Complex64 => 16

/-- The image fields that `convertPixelStorageTo` touches (src/libxisf.h lines
331-341): geometry, storage tag, sample format, and the pixel bytes of
`_dataBlock.data`. -/
structure Image where
  width : Nat
  height : Nat
  channelCount : Nat
  pixelStorage : PixelStorage
  sampleFormat : SampleFormat
  data : List Nat
deriving DecidableEq

/-- The template `planarToNormal<T>`, src/libxisf.cpp lines 295-303, at byte
granularity with `es = sizeof(T)`: output element `i * channels + o` receives
input element `o * size + i` for `i < size`, `o < channels`; bytes outside the
written element range keep the zero fill of the freshly allocated output. -/
def planarToNormal (es channels size : Nat) (din : List Nat) : List Nat :=
  (List.range din.length).map (fun idx =>
    if idx / es < size * channels then
      din.getD ((idx / es % channels * size + idx / es / channels) * es + idx % es) 0
    else 0)

/-- The template `normalToPlanar<T>`, src/libxisf.cpp lines 305-313, at byte
granularity: output element `o * size + i` receives input element
`i * channels + o`. -/
def normalToPlanar (es channels size : Nat) (din : List Nat) : List Nat :=
  (List.range din.length).map (fun idx =>
    if idx / es < channels * size then
      din.getD ((idx / es % size * channels + idx / es / size) * es + idx % es) 0
    else 0)

/-- `Image::convertPixelStorageTo`, src/libxisf.cpp lines 502-547.  Identity
(bar the tag) when the storage already matches or the image has at most one
channel; otherwise a transpose dispatched on the sample format, where
`UInt32`/`Float32` share the 4-byte case, `UInt64`/`Float64` the 8-byte case,
and `Complex32`/`Complex64` hit `default: break`, so the freshly allocated
zero-filled `tmp` is assigned to the pixel data without any copy. -/
def convertPixelStorageTo (img : Image) (storage : PixelStorage) : Image :=
  if img.pixelStorage = storage ∨ img.channelCount ≤ 1 then
    { img with pixelStorage := storage }
  else
    let size := img.width * img.height
    let es? : Option Nat :=
      match img.sampleFormat with
      | .UInt8 => some 1
      | .UInt16 => some 2
      | .UInt32 | .Float32 => some 4
      | .UInt64 | .Float64 => some 8
      | .Complex32 | .Complex64 => none
    match es? with
    | some es =>
      let newdata :=
        if storage = .Normal then planarToNormal es img.channelCount size img.data
        else normalToPlanar es img.channelCount size img.data
      { img with data := newdata, pixelStorage := storage }
    | none =>
      { img with data := List.replicate img.data.length 0, pixelStorage := storage }

/-- C4: evaluation of the Planar/Normal double conversion on a multi-channel
`Complex32` image.  The failing input is a 1×1 two-channel `Complex32` image
whose 16 data bytes are all 1 (satisfying the §3 size invariant); converting
to Normal and back to Planar yields an all-zero buffer because the complex
sample formats fall into `default: break` and the zero-filled `tmp` replaces
the pixel data — contradicting the claim that the double conversion restores
every multi-channel image of any supported sample format. -/
theorem convertPixelStorage_complex_zeroes :
    (List.replicate 16 1).length
      = 1 * 1 * 2 * sampleFormatSize .Complex32 ∧
    (convertPixelStorageTo (convertPixelStorageTo
        ⟨1, 1, 2, .Planar, .Complex32, List.replicate 16 1⟩ .Normal) .Planar).data
      = List.replicate 16 0 ∧
    (convertPixelStorageTo (convertPixelStorageTo
        ⟨1, 1, 2, .Planar, .Complex32, List.replicate 16 1⟩ .Normal) .Planar).data
      ≠ (⟨1, 1, 2, .Planar, .Complex32, List.replicate 16 1⟩ : Image).data := by
  refine ⟨by decide, by decide, by decide⟩

/-! ### Base-64 transport coding (src/bytearray.cpp lines 60-125) -/

/-- ASCII codes of the alphabet string `base64` in `ByteArray::encodeBase64`,
src/bytearray.cpp line 91. -/
def base64Chars : List Nat :=
  "ABCDEFGHIJKLMNOPQRSTUVWXYZabcdefghijklmnopqrstuvwxyz0123456789+/".data.map
    Char.toNat

/-- Indexing `base64[x]` into the alphabet string. -/
def tblB64 (i : Nat) : Nat := base64Chars.getD i 0

/-- The alphabet classification of the decoder loop, src/bytearray.cpp lines
66-72: the 6-bit value of an alphabet byte, `none` for every other byte
(which the loop silently skips). -/
def decVal (c : Nat) : Option Nat :=
  if 'A'.toNat ≤ c ∧ c ≤ 'Z'.toNat then some (c - 'A'.toNat)
  else if 'a'.toNat ≤ c ∧ c ≤ 'z'.toNat then some (c - 'a'.toNat + 26)
  else if '0'.toNat ≤ c ∧ c ≤ '9'.toNat then some (c - '0'.toNat + 52)
  else if c = '+'.toNat then some 62
  else if c = '/'.toNat then some 63
  else none

/-- State machine of `ByteArray::encodeBase64`, src/bytearray.cpp lines 89-125:
`i` counts input bytes within the current 3-byte group and `s0 s1 s2` are the
accumulated `sextet[0..2]` (`sextet[3]` exists only at emission).  The flush
after the loop pushes the pending `i + 1` sextet characters and then pads the
output with `'='` to a multiple of four; since every full group emits four
characters, the padding is local to the flush. -/
def encLoop : List Nat → Nat → Nat → Nat → Nat → List Nat
  | [], 0, _, _, _ => []
  | [], 1, s0, s1, _ => [tblB64 s0, tblB64 s1, '='.toNat, '='.toNat]
  | [], _ + 2, s0, s1, s2 => [tblB64 s0, tblB64 s1, tblB64 s2, '='.toNat]
  | c :: rest, 0, s0, s1, s2 =>
      encLoop rest 1 (s0 ||| (c >>> 2 &&& 63)) (s1 ||| (c <<< 4 &&& 63)) s2
  | c :: rest, 1, s0, s1, s2 =>
      encLoop rest 2 s0 (s1 ||| (c >>> 4 &&& 63)) (s2 ||| (c <<< 2 &&& 63))
  | c :: rest, _ + 2, s0, s1, s2 =>
      tblB64 s0 :: tblB64 s1 :: tblB64 (s2 ||| (c >>> 6 &&& 63))
        :: tblB64 (c &&& 63) :: encLoop rest 0 0 0 0

/-- `ByteArray::encodeBase64`: run the loop from the empty state. -/
def encodeBase64 (l : List Nat) : List Nat := encLoop l 0 0 0 0

/-- State machine of `ByteArray::decodeBase64`, src/bytearray.cpp lines 60-87:
`i` counts the alphabet values collected into `c4`, held in `c0 c1 c2`; the
fourth value triggers emission of three bytes (stored through `char`, hence
the reduction mod 256) and resets `i` while leaving the registers stale, and
the final flush emits one byte when two values are pending and two bytes when
three are. -/
def decLoop : List Nat → Nat → Nat → Nat → Nat → List Nat
  | [], i, c0, c1, c2 =>
      (if 1 < i then [((c0 <<< 2) ||| (c1 >>> 4)) % 256] else [])
      ++ (if 2 < i then [((c1 <<< 4) ||| (c2 >>> 2)) % 256] else [])
  | c :: rest, i, c0, c1, c2 =>
      match decVal c with
      | none => decLoop rest i c0 c1 c2
      | some v =>
        match i with
        | 0 => decLoop rest 1 v c1 c2
        | 1 => decLoop rest 2 c0 v c2
        | 2 => decLoop rest 3 c0 c1 v
        | _ + 3 =>
            ((c0 <<< 2) ||| (c1 >>> 4)) % 256
              :: ((c1 <<< 4) ||| (c2 >>> 2)) % 256
              :: ((c2 <<< 6) ||| v) % 256
              :: decLoop rest 0 c0 c1 c2

/-- `ByteArray::decodeBase64`: run the loop from the empty state. -/
def decodeBase64 (l : List Nat) : List Nat := decLoop l 0 0 0 0

theorem decVal_tblB64 : ∀ v, v < 64 → decVal (tblB64 v) = some v := by decide

theorem decVal_pad : decVal ('='.toNat) = none := by decide

theorem and63_eq_mod (x : Nat) : x &&& 63 = x % 64 :=
  Nat.and_pow_two_sub_one_eq_mod x 6

theorem or_mul16 (x y : Nat) (h : y < 16) : x * 16 ||| y = x * 16 + y := by
  rw [show (16 : Nat) = 2 ^ 4 from rfl, Nat.mul_comm x (2 ^ 4)]
  exact (Nat.mul_add_lt_is_or (by simpa using h) x).symm

theorem or_mul4 (x y : Nat) (h : y < 4) : x * 4 ||| y = x * 4 + y := by
  rw [show (4 : Nat) = 2 ^ 2 from rfl, Nat.mul_comm x (2 ^ 2)]
  exact (Nat.mul_add_lt_is_or (by simpa using h) x).symm

theorem or_mul64 (x y : Nat) (h : y < 64) : x * 64 ||| y = x * 64 + y := by
  rw [show (64 : Nat) = 2 ^ 6 from rfl, Nat.mul_comm x (2 ^ 6)]
  exact (Nat.mul_add_lt_is_or (by simpa using h) x).symm

theorem sextet0_eq (a : Nat) (ha : a < 256) : 0 ||| (a >>> 2 &&& 63) = a / 4 := by
  rw [Nat.zero_or, Nat.shiftRight_eq_div_pow, and63_eq_mod,
    show (2 : Nat) ^ 2 = 4 from rfl]
  omega

theorem sextet1_eq (a b : Nat) (ha : a < 256) (hb : b < 256) :
    (0 ||| (a <<< 4 &&& 63)) ||| (b >>> 4 &&& 63) = a % 4 * 16 + b / 16 := by
  rw [Nat.zero_or, Nat.shiftLeft_eq, Nat.shiftRight_eq_div_pow, and63_eq_mod,
    and63_eq_mod, show (2 : Nat) ^ 4 = 16 from rfl]
  have e1 : a * 16 % 64 = a % 4 * 16 := by omega
  have e2 : b / 16 % 64 = b / 16 := by omega
  rw [e1, e2, or_mul16 _ _ (by omega)]

theorem sextet1_tail_eq (a : Nat) (ha : a < 256) :
    0 ||| (a <<< 4 &&& 63) = a % 4 * 16 + 0 := by
  rw [Nat.zero_or, Nat.shiftLeft_eq, and63_eq_mod,
    show (2 : Nat) ^ 4 = 16 from rfl]
  omega

theorem sextet2_eq (b c : Nat) (hb : b < 256) (hc : c < 256) :
    (0 ||| (b <<< 2 &&& 63)) ||| (c >>> 6 &&& 63) = b % 16 * 4 + c / 64 := by
  rw [Nat.zero_or, Nat.shiftLeft_eq, Nat.shiftRight_eq_div_pow, and63_eq_mod,
    and63_eq_mod, show (2 : Nat) ^ 2 = 4 from rfl,
    show (2 : Nat) ^ 6 = 64 from rfl]
  have e1 : b * 4 % 64 = b % 16 * 4 := by omega
  have e2 : c / 64 % 64 = c / 64 := by omega
  rw [e1, e2, or_mul4 _ _ (by omega)]

theorem sextet2_tail_eq (b : Nat) (hb : b < 256) :
    0 ||| (b <<< 2 &&& 63) = b % 16 * 4 + 0 := by
  rw [Nat.zero_or, Nat.shiftLeft_eq, and63_eq_mod,
    show (2 : Nat) ^ 2 = 4 from rfl]
  omega

theorem decByte1 (a t : Nat) (ha : a < 256) (ht : t < 16) :
    (((a / 4) <<< 2) ||| ((a % 4 * 16 + t) >>> 4)) % 256 = a := by
  rw [Nat.shiftLeft_eq, Nat.shiftRight_eq_div_pow,
    show (2 : Nat) ^ 2 = 4 from rfl, show (2 : Nat) ^ 4 = 16 from rfl]
  have e1 : (a % 4 * 16 + t) / 16 = a % 4 := by omega
  rw [e1, or_mul4 _ _ (by omega)]
  omega

theorem decByte2 (p b u : Nat) (hp : p < 4) (hb : b < 256) (hu : u < 4) :
    (((p * 16 + b / 16) <<< 4) ||| ((b % 16 * 4 + u) >>> 2)) % 256 = b := by
  rw [Nat.shiftLeft_eq, Nat.shiftRight_eq_div_pow,
    show (2 : Nat) ^ 4 = 16 from rfl, show (2 : Nat) ^ 2 = 4 from rfl]
  have e1 : (b % 16 * 4 + u) / 4 = b % 16 := by omega
  rw [e1, or_mul16 _ _ (by omega)]
  omega

theorem decByte3 (q c : Nat) (hq : q < 16) (hc : c < 256) :
    (((q * 4 + c / 64) <<< 6) ||| c % 64) % 256 = c := by
  rw [Nat.shiftLeft_eq, show (2 : Nat) ^ 6 = 64 from rfl,
    or_mul64 _ _ (by omega)]
  omega

theorem decLoop_chunk (s0 s1 s2 s3 : Nat) (h0 : s0 < 64) (h1 : s1 < 64)
    (h2 : s2 < 64) (h3 : s3 < 64) (rest : List Nat) (c0 c1 c2 : Nat) :
    decLoop (tblB64 s0 :: tblB64 s1 :: tblB64 s2 :: tblB64 s3 :: rest) 0 c0 c1 c2
      = ((s0 <<< 2) ||| (s1 >>> 4)) % 256
        :: ((s1 <<< 4) ||| (s2 >>> 2)) % 256
        :: ((s2 <<< 6) ||| s3) % 256
        :: decLoop rest 0 s0 s1 s2 := by
  simp [decLoop, decVal_tblB64 _ h0, decVal_tblB64 _ h1, decVal_tblB64 _ h2,
    decVal_tblB64 _ h3]

theorem decLoop_nil_two (c0 c1 c2 : Nat) :
    decLoop [] 2 c0 c1 c2 = [((c0 <<< 2) ||| (c1 >>> 4)) % 256] := rfl

theorem decLoop_nil_three (c0 c1 c2 : Nat) :
    decLoop [] 3 c0 c1 c2
      = [((c0 <<< 2) ||| (c1 >>> 4)) % 256,
         ((c1 <<< 4) ||| (c2 >>> 2)) % 256] := rfl

theorem decLoop_cons_none {c : Nat} (h : decVal c = none)
    (rest : List Nat) (i c0 c1 c2 : Nat) :
    decLoop (c :: rest) i c0 c1 c2 = decLoop rest i c0 c1 c2 := by
  simp only [decLoop, h]

theorem decLoop_cons_some0 {c v : Nat} (h : decVal c = some v)
    (rest : List Nat) (c0 c1 c2 : Nat) :
    decLoop (c :: rest) 0 c0 c1 c2 = decLoop rest 1 v c1 c2 := by
  simp only [decLoop, h]

theorem decLoop_cons_some1 {c v : Nat} (h : decVal c = some v)
    (rest : List Nat) (c0 c1 c2 : Nat) :
    decLoop (c :: rest) 1 c0 c1 c2 = decLoop rest 2 c0 v c2 := by
  simp only [decLoop, h]

theorem decLoop_cons_some2 {c v : Nat} (h : decVal c = some v)
    (rest : List Nat) (c0 c1 c2 : Nat) :
    decLoop (c :: rest) 2 c0 c1 c2 = decLoop rest 3 c0 c1 v := by
  simp only [decLoop, h]

theorem decLoop_cons_some3 {c v : Nat} (h : decVal c = some v)
    (rest : List Nat) (n c0 c1 c2 : Nat) :
    decLoop (c :: rest) (n + 3) c0 c1 c2
      = ((c0 <<< 2) ||| (c1 >>> 4)) % 256
        :: ((c1 <<< 4) ||| (c2 >>> 2)) % 256
        :: ((c2 <<< 6) ||| v) % 256
        :: decLoop rest 0 c0 c1 c2 := by
  simp only [decLoop, h]

theorem decode_encode : ∀ (l : List Nat), (∀ b ∈ l, b < 256) →
    ∀ c0 c1 c2 : Nat, decLoop (encLoop l 0 0 0 0) 0 c0 c1 c2 = l
  | [], _, _, _, _ => rfl
  | [a], h, c0, c1, c2 => by
    have ha : a < 256 := h a (by simp)
    have henc : encLoop [a] 0 0 0 0
        = [tblB64 (0 ||| (a >>> 2 &&& 63)), tblB64 (0 ||| (a <<< 4 &&& 63)),
           '='.toNat, '='.toNat] := rfl
    rw [henc, sextet0_eq a ha, sextet1_tail_eq a ha]
    have h0 : a / 4 < 64 := by omega
    have h1 : a % 4 * 16 + 0 < 64 := by omega
    rw [decLoop_cons_some0 (decVal_tblB64 _ h0),
      decLoop_cons_some1 (decVal_tblB64 _ h1),
      decLoop_cons_none decVal_pad, decLoop_cons_none decVal_pad,
      decLoop_nil_two, decByte1 a 0 ha (by omega)]
  | [a, b], h, c0, c1, c2 => by
    have ha : a < 256 := h a (by simp)
    have hb : b < 256 := h b (by simp)
    have henc : encLoop [a, b] 0 0 0 0
        = [tblB64 (0 ||| (a >>> 2 &&& 63)),
           tblB64 ((0 ||| (a <<< 4 &&& 63)) ||| (b >>> 4 &&& 63)),
           tblB64 (0 ||| (b <<< 2 &&& 63)), '='.toNat] := rfl
    rw [henc, sextet0_eq a ha, sextet1_eq a b ha hb, sextet2_tail_eq b hb]
    have h0 : a / 4 < 64 := by omega
    have h1 : a % 4 * 16 + b / 16 < 64 := by omega
    have h2 : b % 16 * 4 + 0 < 64 := by omega
    rw [decLoop_cons_some0 (decVal_tblB64 _ h0),
      decLoop_cons_some1 (decVal_tblB64 _ h1),
      decLoop_cons_some2 (decVal_tblB64 _ h2),
      decLoop_cons_none decVal_pad, decLoop_nil_three,
      decByte1 a (b / 16) ha (by omega),
      decByte2 (a % 4) b 0 (by omega) hb (by omega)]
  | a :: b :: c :: rest, h, c0, c1, c2 => by
    have ha : a < 256 := h a (by simp)
    have hb : b < 256 := h b (by simp)
    have hc : c < 256 := h c (by simp)
    have henc : encLoop (a :: b :: c :: rest) 0 0 0 0
        = tblB64 (0 ||| (a >>> 2 &&& 63))
          :: tblB64 ((0 ||| (a <<< 4 &&& 63)) ||| (b >>> 4 &&& 63))
          :: tblB64 ((0 ||| (b <<< 2 &&& 63)) ||| (c >>> 6 &&& 63))
          :: tblB64 (c &&& 63) :: encLoop rest 0 0 0 0 := rfl
    rw [henc, sextet0_eq a ha, sextet1_eq a b ha hb, sextet2_eq b c hb hc,
      and63_eq_mod c]
    have h0 : a / 4 < 64 := by omega
    have h1 : a % 4 * 16 + b / 16 < 64 := by omega
    have h2 : b % 16 * 4 + c / 64 < 64 := by omega
    have h3 : c % 64 < 64 := by omega
    rw [decLoop_chunk _ _ _ _ h0 h1 h2 h3,
      decode_encode rest (fun x hx => h x (by simp [hx])) _ _ _,
      decByte1 a (b / 16) ha (by omega),
      decByte2 (a % 4) b (c / 64) (by omega) hb (by omega),
      decByte3 (b % 16) c (by omega) hc]

theorem encLoop_length_mod : ∀ (l : List Nat) (i s0 s1 s2 : Nat), i ≤ 2 →
    (encLoop l i s0 s1 s2).length % 4 = 0 := by
  intro l
  induction l with
  | nil =>
    intro i s0 s1 s2 hi
    have hcase : i = 0 ∨ i = 1 ∨ i = 2 := by omega
    rcases hcase with hv | hv | hv <;> subst hv
    · rfl
    · simp [encLoop]
    · simp [encLoop]
  | cons c rest ih =>
    intro i s0 s1 s2 hi
    have hcase : i = 0 ∨ i = 1 ∨ i = 2 := by omega
    rcases hcase with hv | hv | hv <;> subst hv
    · exact ih 1 _ _ _ (by omega)
    · exact ih 2 _ _ _ (by omega)
    · have hstep : encLoop (c :: rest) 2 s0 s1 s2
          = tblB64 s0 :: tblB64 s1 :: tblB64 (s2 ||| (c >>> 6 &&& 63))
            :: tblB64 (c &&& 63) :: encLoop rest 0 0 0 0 := rfl
      rw [hstep]
      simp only [List.length_cons]
      have := ih 0 0 0 0 (by omega)
      omega

theorem decLoop_filter : ∀ (s : List Nat) (i c0 c1 c2 : Nat),
    decLoop s i c0 c1 c2
      = decLoop (s.filter (fun c => (decVal c).isSome)) i c0 c1 c2 := by
  intro s
  induction s with
  | nil => intro i c0 c1 c2; rfl
  | cons c rest ih =>
    intro i c0 c1 c2
    cases hv : decVal c with
    | none =>
      have hf : (c :: rest).filter (fun c => (decVal c).isSome)
          = rest.filter (fun c => (decVal c).isSome) := by
        simp [List.filter_cons, hv]
      rw [hf, decLoop_cons_none hv]
      exact ih i c0 c1 c2
    | some v =>
      have hf : (c :: rest).filter (fun c => (decVal c).isSome)
          = c :: rest.filter (fun c => (decVal c).isSome) := by
        simp [List.filter_cons, hv]
      rw [hf]
      by_cases hge : 3 ≤ i
      · rw [show i = (i - 3) + 3 from by omega, decLoop_cons_some3 hv,
          decLoop_cons_some3 hv, ih 0 c0 c1 c2]
      · have hcase : i = 0 ∨ i = 1 ∨ i = 2 := by omega
        rcases hcase with he | he | he <;> subst he
        · rw [decLoop_cons_some0 hv, decLoop_cons_some0 hv]
          exact ih 1 v c1 c2
        · rw [decLoop_cons_some1 hv, decLoop_cons_some1 hv]
          exact ih 2 c0 v c2
        · rw [decLoop_cons_some2 hv, decLoop_cons_some2 hv]
          exact ih 3 c0 c1 v

theorem decLoop_length_alpha : ∀ (s : List Nat) (i c0 c1 c2 : Nat), i ≤ 3 →
    (∀ c ∈ s, (decVal c).isSome) →
    (decLoop s i c0 c1 c2).length
      = 3 * ((i + s.length) / 4)
        + (if (i + s.length) % 4 ≤ 1 then 0 else (i + s.length) % 4 - 1) := by
  intro s
  induction s with
  | nil =>
    intro i c0 c1 c2 hi _
    have hcase : i = 0 ∨ i = 1 ∨ i = 2 ∨ i = 3 := by omega
    rcases hcase with hv | hv | hv | hv <;> subst hv
    · rfl
    · rfl
    · rfl
    · rfl
  | cons c rest ih =>
    intro i c0 c1 c2 hi hall
    have hv : (decVal c).isSome := hall c (by simp)
    obtain ⟨v, hveq⟩ := Option.isSome_iff_exists.1 hv
    have hrest : ∀ x ∈ rest, (decVal x).isSome :=
      fun x hx => hall x (by simp [hx])
    simp only [List.length_cons]
    have hcase : i = 0 ∨ i = 1 ∨ i = 2 ∨ i = 3 := by omega
    rcases hcase with he | he | he | he <;> subst he
    · rw [decLoop_cons_some0 hveq, ih 1 v c1 c2 (by omega) hrest,
        show 0 + (rest.length + 1) = 1 + rest.length from by omega]
    · rw [decLoop_cons_some1 hveq, ih 2 c0 v c2 (by omega) hrest,
        show 1 + (rest.length + 1) = 2 + rest.length from by omega]
    · rw [decLoop_cons_some2 hveq, ih 3 c0 c1 v (by omega) hrest,
        show 2 + (rest.length + 1) = 3 + rest.length from by omega]
    · rw [show (3 : Nat) = 0 + 3 from rfl, decLoop_cons_some3 hveq]
      simp only [List.length_cons]
      rw [ih 0 c0 c1 c2 (by omega) hrest,
        show 0 + 3 + (rest.length + 1) = rest.length + 4 from by omega,
        Nat.add_div_right _ (by omega : 0 < 4), Nat.add_mod_right,
        Nat.zero_add]
      by_cases hc4 : rest.length % 4 ≤ 1
      · rw [if_pos hc4]
        omega
      · rw [if_neg hc4]
        omega

theorem base64_roundtrip :
    (∀ l : List Nat, (∀ b ∈ l, b < 256) →
      decodeBase64 (encodeBase64 l) = l ∧ (encodeBase64 l).length % 4 = 0) ∧
    (∀ s : List Nat,
      decodeBase64 s = decodeBase64 (s.filter (fun c => (decVal c).isSome))) ∧
    (∀ s : List Nat, (∀ c ∈ s, (decVal c).isSome) → s.length % 4 = 2 →
      (decodeBase64 s).length = 3 * (s.length / 4) + 1) ∧
    (∀ s : List Nat, (∀ c ∈ s, (decVal c).isSome) → s.length % 4 = 3 →
      (decodeBase64 s).length = 3 * (s.length / 4) + 2) := by
  refine ⟨?_, ?_, ?_, ?_⟩
  · intro l hl
    exact ⟨decode_encode l hl 0 0 0, encLoop_length_mod l 0 0 0 0 (by omega)⟩
  · intro s
    exact decLoop_filter s 0 0 0 0
  · intro s hall h2
    unfold decodeBase64
    rw [decLoop_length_alpha s 0 0 0 0 (by omega) hall]
    simp only [Nat.zero_add]
    rw [if_neg (by omega)]
    omega
  · intro s hall h3
    unfold decodeBase64
    rw [decLoop_length_alpha s 0 0 0 0 (by omega) hall]
    simp only [Nat.zero_add]
    rw [if_neg (by omega)]
    omega

/-- Witness for C7 at the byte string `[72, 101, 255, 0, 7]` and, for the
partial-tail clause, the two-character alphabet input "QU". -/
theorem base64_roundtrip_witness :
    decodeBase64 (encodeBase64 [72, 101, 255, 0, 7]) = [72, 101, 255, 0, 7] ∧
    (encodeBase64 [72, 101, 255, 0, 7]).length % 4 = 0 ∧
    (decodeBase64 ['Q'.toNat, 'U'.toNat]).length = 1 :=
  ⟨(base64_roundtrip.1 [72, 101, 255, 0, 7] (by decide)).1,
   (base64_roundtrip.1 [72, 101, 255, 0, 7] (by decide)).2,
   base64_roundtrip.2.2.1 ['Q'.toNat, 'U'.toNat] (by decide) (by decide)⟩

/-! ### String utilities and the compression attribute
(src/libxisf.cpp lines 750-790, 1095-1150) -/

/-- Accumulating splitter: standard split on the delimiter, producing
`n + 1` fields for `n` delimiters. -/
def splitAux (d : Char) : List Char → List Char → List (List Char)
  | [], acc => [acc.reverse]
  | c :: rest, acc =>
      if c = d then acc.reverse :: splitAux d rest []
      else splitAux d rest (c :: acc)

/-- Modelled from the spec: `splitString` is declared in src/libxisf.cpp line
38 but its definition is not among the provided sources.  Per the
colon-separated attribute grammars of spec 4.5 it splits a string on a
delimiter character; a `std::getline` splitting loop yields no field for the
empty string and does not produce a field after a trailing delimiter, which
this model captures by dropping one trailing empty field. -/
def splitString (s : List Char) (d : Char) : List (List Char) :=
  let fields := splitAux d s []
  if fields.getLast? = some [] then fields.dropLast else fields

/-- Whether `pat` occurs in `s` at position `i` (`std::string::compare`-style
full match within bounds). -/
def substrAt (s pat : List Char) (i : Nat) : Bool :=
  decide ((s.drop i).take pat.length = pat)

/-- `std::string::find(pat, start)`: the smallest position `≥ start` at which
`pat` occurs, `none` for `npos`. -/
def strFind (s pat : List Char) (start : Nat) : Option Nat :=
  (List.range (s.length + 1)).find? (fun i => decide (start ≤ i) && substrAt s pat i)

/-- `std::string::replace(pos, len, repl)`. -/
def strReplace (s : List Char) (pos len : Nat) (repl : List Char) : List Char :=
  s.take pos ++ repl ++ s.drop (pos + len)

/-- Leading-decimal-digit parser underlying the `std::stoull`/`std::stoi`
calls on attribute fields: accumulated value and count of consumed
characters.  (The grammar of spec 4.5 admits only plain decimal fields, so
sign and base handling of the library functions are not modelled.) -/
def parseDigitsAux : List Char → Nat → Nat → Nat × Nat
  | [], acc, n => (acc, n)
  | c :: rest, acc, n =>
      if '0'.toNat ≤ c.toNat ∧ c.toNat ≤ '9'.toNat then
        parseDigitsAux rest (acc * 10 + (c.toNat - '0'.toNat)) (n + 1)
      else (acc, n)

/-- `std::stoull(s, &pos)`: value and consumed count; throws
(`std::invalid_argument`, here an error) when no digit leads. -/
def stoullPos (s : List Char) : Except String (Nat × Nat) :=
  let r := parseDigitsAux s 0 0
  if r.2 = 0 then .error "invalid stoull argument" else .ok r

/-- `std::stoull(s)` (also standing in for the non-negative `std::stoi` uses
of the parser). -/
def stoull (s : List Char) : Except String Nat :=
  (stoullPos s).map (fun r => r.1)

/-- `DataBlock::CompressionCodec`.  The in-tree libxisf.h predates the current
libxisf.cpp; the latter's `DataBlock::ZSTD` member and `subblocks` field are
reconstructed from their uses (lines 168-186, 1138-1149). -/
inductive CompressionCodec where
  | None | Zlib | LZ4 | LZ4HC | ZSTD
deriving DecidableEq

/-- `DataBlock` (libxisf.h lines 167-186 plus the `subblocks` list of the
current sources).  `data` holds bytes; sizes are naturals. -/
structure DataBlock where
  embedded : Bool := false
  byteShuffling : Nat := 0
  attachmentPos : Nat := 0
  attachmentSize : Nat := 0
  uncompressedSize : Nat := 0
  codec : CompressionCodec := .None
  compressLevel : Int := -1
  subblocks : List (Nat × Nat) := []
  data : List Nat := []
deriving DecidableEq

/-- The codec-name prefix dispatch of `parseCompression`, src/libxisf.cpp
lines 755-766 (`find(...) == 0` is a prefix test; `lz4hc` is tried before
`lz4`); an unknown name throws.  `HAVE_ZSTD` is assumed defined. -/
def selectCodec (f0 : List Char) : Except String CompressionCodec :=
  if strFind f0 "zlib".data 0 = some 0 then .ok .Zlib
  else if strFind f0 "lz4hc".data 0 = some 0 then .ok .LZ4HC
  else if strFind f0 "lz4".data 0 = some 0 then .ok .LZ4
  else if strFind f0 "zstd".data 0 = some 0 then .ok .ZSTD
  else .error "Unknown compression codec"

/-- Parsing of the `subblocks` attribute, src/libxisf.cpp lines 778-788: a
`:`-separated list of `c,d` pairs; `stoull(block, &pos)` then
`block.substr(pos + 1)`. -/
def parseSubblocks : List (List Char) → Except String (List (Nat × Nat))
  | [] => .ok []
  | blk :: rest =>
      match stoullPos blk with
      | .error e => .error e
      | .ok cp =>
        match stoull (blk.drop (cp.2 + 1)) with
        | .error e => .error e
        | .ok deco =>
          match parseSubblocks rest with
          | .error e => .error e
          | .ok tail => .ok ((cp.1, deco) :: tail)

/-- The `'+sh'` clause of `parseCompression`, src/libxisf.cpp lines 770-776:
when field 0 contains `"+sh"`, exactly three fields are required and the
third is parsed as the byte-shuffling item size; otherwise the block passes
through. -/
def shCheck (compression : List (List Char)) (db1 : DataBlock) :
    Except String DataBlock :=
  if (strFind (compression.getD 0 []) "+sh".data 0).isSome = true then
    if compression.length = 3 then
      (stoull (compression.getD 2 [])).map
        (fun bs => { db1 with byteShuffling := bs })
    else .error "Missing byte shuffling size"
  else .ok db1

/-- `XISFReaderPrivate::parseCompression`, src/libxisf.cpp lines 750-790,
applied to the `compression` attribute text and the optional `subblocks`
attribute.  An attribute splitting into fewer than two fields is skipped
entirely; otherwise the codec prefix, the `uncompressedSize` field, the
`'+sh'` clause, and the sub-block list are processed in source order, any
failure aborting with that error. -/
def parseCompression (compressionAttr : List Char)
    (subblocksAttr : Option (List Char)) (db : DataBlock) :
    Except String DataBlock :=
  let compression := splitString compressionAttr ':'
  if 2 ≤ compression.length then
    match selectCodec (compression.getD 0 []) with
    | .error e => .error e
    | .ok codec =>
      match stoull (compression.getD 1 []) with
      | .error e => .error e
      | .ok usize =>
        match shCheck compression
            { db with codec := codec, uncompressedSize := usize } with
        | .error e => .error e
        | .ok db2 =>
          match subblocksAttr with
          | none => .ok db2
          | some sv =>
            match parseSubblocks (splitString sv ':') with
            | .error e => .error e
            | .ok bl => .ok { db2 with subblocks := db2.subblocks ++ bl }
  else .ok db

theorem shCheck_error (compression : List (List Char)) (db1 : DataBlock)
    (hsh : (strFind (compression.getD 0 []) "+sh".data 0).isSome = true)
    (h3 : compression.length ≠ 3) :
    shCheck compression db1 = .error "Missing byte shuffling size" := by
  unfold shCheck
  rw [if_pos hsh, if_neg h3]

/-- The codec-name selection of `XISFWriterPrivate::writeDataBlockAttributes`,
src/libxisf.cpp lines 1111-1124: empty for `None`, and `"zstd"` for `ZSTD`
under `HAVE_ZSTD`. -/
def codecName : CompressionCodec → List Char
  | .None => []
  | .Zlib => "zlib".data
  | .LZ4 => "lz4".data
  | .LZ4HC => "lz4hc".data
  | .ZSTD => "zstd".data

/-- The `compression` attribute computed by `writeDataBlockAttributes`,
src/libxisf.cpp lines 1111-1136: the codec name, `"+sh"` appended whenever
`byteShuffling > 1`, and — if the accumulated name is non-empty — the
`uncompressedSize` and (when shuffled) the item size, colon-separated;
`none` when no attribute is emitted. -/
def writeCompressionAttribute (db : DataBlock) : Option (List Char) :=
  let codec0 := codecName db.codec
  let codec1 := if 1 < db.byteShuffling then codec0 ++ "+sh".data else codec0
  if codec1 ≠ [] then
    let s1 := codec1 ++ ":".data ++ (Nat.repr db.uncompressedSize).data
    let s2 := if 1 < db.byteShuffling then
                s1 ++ ":".data ++ (Nat.repr db.byteShuffling).data
              else s1
    some s2
  else none

/-- `Image::setByteshuffling`, src/libxisf.cpp lines 497-500: enabling sets
the item size to the sample size. -/
def setByteshuffling (db : DataBlock) (enable : Bool) (fmt : SampleFormat) :
    DataBlock :=
  { db with byteShuffling := if enable then sampleFormatSize fmt else 0 }

/-- The `DataBlock::compress` write path, src/libxisf.cpp lines 195-213,
specialized to `codec = None` with the process-wide `LIBXISF_COMPRESSION`
override unset: `uncompressedSize := data.size()` is recorded and the forward
byte shuffle applied; the compressing codecs themselves are external
collaborators (spec 1). -/
def compressNone (db : DataBlock) : DataBlock :=
  { db with uncompressedSize := db.data.length,
            data := byteShuffle db.data db.byteShuffling }

/-- C10 counterexample: the compression attribute `"lz4+sh"` carries the
`'+sh'` suffix and lacks the third colon-separated itemSize field, yet parses
without an error: it splits into a single field, so the
`compression.size() >= 2` guard skips the whole parse and the DataBlock is
returned unchanged. -/
theorem parseCompression_sh_one_field_no_error :
    parseCompression "lz4+sh".data none {} = .ok {} := rfl

/-- C10 (amended): for compression attributes with at least two
colon-separated fields, a `'+sh'` codec-name suffix without exactly three
fields makes parsing raise an error (which specific error depends on whether
the codec and size fields parse first); an attribute with fewer than two
fields is ignored without error (see the counterexample).  The writer emits,
for every DataBlock with `byteShuffling > 1` and a codec other than `None`,
the attribute `codecName ++ "+sh" ++ ":" ++ uncompressedSize ++ ":" ++
itemSize`. -/
theorem compression_sh_grammar (v : List Char) (sub : Option (List Char))
    (db : DataBlock)
    (h2 : 2 ≤ (splitString v ':').length)
    (hsh : (strFind ((splitString v ':').getD 0 []) "+sh".data 0).isSome = true)
    (h3 : (splitString v ':').length ≠ 3) :
    (∃ e, parseCompression v sub db = .error e) ∧
    (∀ dbw : DataBlock, 1 < dbw.byteShuffling → dbw.codec ≠ .None →
      writeCompressionAttribute dbw
        = some (codecName dbw.codec ++ "+sh".data ++ ":".data
            ++ (Nat.repr dbw.uncompressedSize).data ++ ":".data
            ++ (Nat.repr dbw.byteShuffling).data)) := by
  constructor
  · unfold parseCompression
    rw [if_pos h2]
    cases hsel : selectCodec ((splitString v ':').getD 0 []) with
    | error e => exact ⟨e, rfl⟩
    | ok codec =>
      cases hsz : stoull ((splitString v ':').getD 1 []) with
      | error e => exact ⟨e, rfl⟩
      | ok usize =>
        dsimp only
        rw [shCheck_error _ _ hsh h3]
        exact ⟨"Missing byte shuffling size", rfl⟩
  · intro dbw hbs hcodec
    cases hc : dbw.codec with
    | None => exact absurd hc hcodec
    | Zlib =>
      simp only [writeCompressionAttribute, hc, codecName, if_pos hbs]
      rw [if_pos (by decide : ("zlib".data ++ "+sh".data) ≠ [])]
    | LZ4 =>
      simp only [writeCompressionAttribute, hc, codecName, if_pos hbs]
      rw [if_pos (by decide : ("lz4".data ++ "+sh".data) ≠ [])]
    | LZ4HC =>
      simp only [writeCompressionAttribute, hc, codecName, if_pos hbs]
      rw [if_pos (by decide : ("lz4hc".data ++ "+sh".data) ≠ [])]
    | ZSTD =>
      simp only [writeCompressionAttribute, hc, codecName, if_pos hbs]
      rw [if_pos (by decide : ("zstd".data ++ "+sh".data) ≠ [])]

/-- Witness for C10 (amended) at the attribute `"lz4+sh:70"` (two fields,
`'+sh'` suffix) and the writer input of the spec's scenario 2 (LZ4,
uncompressed size 70, item size 2, giving `"lz4+sh:70:2"`). -/
theorem compression_sh_grammar_witness :
    (∃ e, parseCompression "lz4+sh:70".data none {} = .error e) ∧
    writeCompressionAttribute
        { codec := .LZ4, byteShuffling := 2, uncompressedSize := 70 }
      = some "lz4+sh:70:2".data := by
  have h := compression_sh_grammar "lz4+sh:70".data none {}
    (by decide) (by decide) (by decide)
  refine ⟨h.1, ?_⟩
  rw [h.2 { codec := .LZ4, byteShuffling := 2, uncompressedSize := 70 }
    (by decide) (by decide)]
  decide

/-- C1: the full serialization round-trip fails on the code.  For the valid
1×1 single-channel UInt16 image with data bytes `[7, 9]` and byte-shuffling
enabled but codec `None` (all §3 invariants hold), the writer's
`compress` leaves codec `None` with `byteShuffling = 2` and
`uncompressedSize = 2`, `writeDataBlockAttributes` then emits the compression
attribute `"+sh:2:2"` with an empty codec name, and the reader's
`parseCompression` rejects exactly that attribute with "Unknown compression
codec" — so `read(write(img))` throws instead of returning the image. -/
theorem roundtrip_unreadable_shuffled_uncompressed :
    (compressNone (setByteshuffling { data := [7, 9] } true .UInt16)).codec
        = .None ∧
    (compressNone (setByteshuffling { data := [7, 9] } true .UInt16)).byteShuffling
        = 2 ∧
    writeCompressionAttribute
        (compressNone (setByteshuffling { data := [7, 9] } true .UInt16))
      = some "+sh:2:2".data ∧
    parseCompression "+sh:2:2".data none {}
      = .error "Unknown compression codec" := by
  refine ⟨rfl, rfl, by decide, rfl⟩

/-! ### Writer header assembly (src/libxisf.cpp lines 1009-1051) -/

/-- The placeholder the writer plants in every attachment location,
src/libxisf.cpp lines 1037 and 1107. -/
def placeholderAttachment : List Char := "attachment:2147483648".data

/-- The placeholder-substitution loop of `XISFWriterPrivate::writeHeader`,
src/libxisf.cpp lines 1036-1044: for each image in order, the next occurrence
of the placeholder past byte 32 is replaced by `"attachment:"` followed by
the image's absolute offset `size + offset`, and `offset` grows by the
image's (compressed) data size.  `std::string::find` returning `npos` would
make `replace` throw `std::out_of_range`, modelled by `none`. -/
def patchLoop (header : List Char) (size offset : Nat) :
    List Nat → Option (List Char)
  | [] => some header
  | imgSize :: rest =>
      match strFind header placeholderAttachment 32 with
      | none => none
      | some pos =>
          patchLoop (strReplace header pos placeholderAttachment.length
              ("attachment:".data ++ (Nat.repr (size + offset)).data))
            size (offset + imgSize) rest

/-- Little-endian bytes of a 32-bit value, as `memcpy` of a `uint32_t` lays
them out on the library's little-endian targets. -/
def leBytes32 (n : Nat) : List Nat :=
  [n % 256, n / 256 % 256, n / 65536 % 256, n / 16777216 % 256]

/-- Wrapping `size_t` subtraction. -/
def usub64 (a b : Nat) : Nat :=
  (a + (18446744073709551616 - b % 18446744073709551616)) % 18446744073709551616

/-- The tail of `XISFWriterPrivate::writeHeader`, src/libxisf.cpp lines
1029-1050, after the DOM has been serialized: `header` is the 16-byte
signature plus the XML bytes, and `size` its length as captured on line 1034
before patching.  The placeholders are substituted (each real offset is
usually shorter than the 10-digit placeholder, shrinking the string),
`headerSize` is computed from the patched length (line 1046), the string is
resized back to `size` — zero-padding, or truncating if it grew — and the
four `uint32_t` bytes of `headerSize` are written at offset 8
(`replace(8, 4, ...)`, which throws when the string is shorter than 8). -/
def writeHeaderModel (header : List Char) (imageSizes : List Nat) :
    Option (List Char) :=
  let size := header.length
  match patchLoop header size 0 imageSizes with
  | none => none
  | some patched =>
      let headerSize := usub64 patched.length 16 % 4294967296
      let padded := (patched
          ++ List.replicate (size - patched.length) (Char.ofNat 0)).take size
      if padded.length < 8 then none
      else some (padded.take 8 ++ (leBytes32 headerSize).map Char.ofNat
                  ++ padded.drop 12)

theorem drop_append_of_length {α : Type} (A B : List α) (n : Nat)
    (h : A.length = n) : (A ++ B).drop n = B := by
  subst h
  exact List.drop_left A B

theorem take_append_of_length {α : Type} (A B : List α) (n : Nat)
    (h : A.length = n) : (A ++ B).take n = A := by
  subst h
  exact List.take_left A B

/-- A concrete pre-patch header: the 16-byte signature area, 16 filler bytes,
and one attachment placeholder at offset 32 (53 bytes in all). -/
def hdrEx : List Char :=
  "XISF0100".data ++ List.replicate 8 (Char.ofNat 0)
    ++ "aaaaaaaaaaaaaaaa".data ++ placeholderAttachment

/-- C3 counterexample: one image of 100 payload bytes behind `hdrEx`.  The
placeholder is replaced by `"attachment:53"`, shrinking the patched header to
45 bytes, so `headerSize = 29` is stored at bytes [8..12) while the emitted
header is padded back to 53 bytes — the value the claim requires would be
`53 − 16 = 37`.  The attachment payload thus begins at offset 53 =
16 + headerSize + 8 padding bytes, not at 16 + headerSize. -/
theorem writeHeader_headerSize_counterexample :
    (writeHeaderModel hdrEx [100]).isSome = true ∧
    ((writeHeaderModel hdrEx [100]).getD []).length = 53 ∧
    (((writeHeaderModel hdrEx [100]).getD []).drop 8).take 4
      = (leBytes32 29).map Char.ofNat ∧
    (leBytes32 29).map Char.ofNat ≠ (leBytes32 (53 - 16)).map Char.ofNat := by
  refine ⟨rfl, rfl, rfl, by decide⟩

/-- C3 (amended): whenever the placeholder substitution succeeds and does not
lengthen the header, the emitted header keeps the pre-patch length `size` (so
the concatenated attachment payloads begin at offset `size`), and bytes
[8..12) hold the little-endian 32-bit value `patched.length − 16` — the
header length after substitution, i.e. `size − 16` minus the zero-padding
bytes, not `size − 16` itself as the claim states. -/
theorem writeHeader_headerSize (header : List Char) (sizes : List Nat)
    (patched : List Char)
    (hp : patchLoop header header.length 0 sizes = some patched)
    (hlen : patched.length ≤ header.length)
    (h16 : 16 ≤ patched.length)
    (h12 : 12 ≤ header.length) :
    ∃ out, writeHeaderModel header sizes = some out ∧
      out.length = header.length ∧
      (out.drop 8).take 4
        = (leBytes32 ((patched.length - 16) % 4294967296)).map Char.ofNat := by
  simp only [writeHeaderModel, hp]
  have hhs : usub64 patched.length 16 % 4294967296
      = (patched.length - 16) % 4294967296 := by
    unfold usub64
    omega
  have hpadlen : ((patched
      ++ List.replicate (header.length - patched.length) (Char.ofNat 0)).take
        header.length).length = header.length := by
    simp only [List.length_take, List.length_append, List.length_replicate]
    omega
  rw [if_neg (by omega : ¬ ((patched
      ++ List.replicate (header.length - patched.length) (Char.ofNat 0)).take
        header.length).length < 8)]
  refine ⟨_, rfl, ?_, ?_⟩
  · simp only [List.length_append, List.length_take, List.length_drop,
      List.length_map, hpadlen]
    have h4 : (leBytes32 (usub64 patched.length 16 % 4294967296)).length = 4 := rfl
    simp only [leBytes32, List.length_map, List.length_cons, List.length_nil]
    omega
  · rw [hhs]
    have htk8 : (((patched
        ++ List.replicate (header.length - patched.length) (Char.ofNat 0)).take
          header.length).take 8).length = 8 := by
      simp only [List.length_take, hpadlen]
      omega
    have hle4 : ((leBytes32 ((patched.length - 16) % 4294967296)).map
        Char.ofNat).length = 4 := rfl
    rw [List.append_assoc, drop_append_of_length _ _ 8 htk8,
      take_append_of_length _ _ 4 hle4]

/-- Witness for C3 (amended) at `hdrEx` with no images: the patch loop leaves
the header untouched and bytes [8..12) hold `53 − 16 = 37`. -/
theorem writeHeader_headerSize_witness :
    ∃ out, writeHeaderModel hdrEx [] = some out ∧
      out.length = hdrEx.length ∧
      (out.drop 8).take 4
        = (leBytes32 ((hdrEx.length - 16) % 4294967296)).map Char.ofNat :=
  writeHeader_headerSize hdrEx [] hdrEx rfl (by decide) (by decide) (by decide)

/-! ### DataBlock decompression (src/libxisf.cpp lines 122-193) -/

/-- `ByteArray::decodeHex` nibble values, src/bytearray.cpp lines 143-152
(`'7'` is 55 and `'W'` is 87 in ASCII; any other byte contributes 0). -/
def hexVal (c : Nat) : Nat :=
  if '0'.toNat ≤ c ∧ c ≤ '9'.toNat then c - '0'.toNat
  else if 'A'.toNat ≤ c ∧ c ≤ 'F'.toNat then c - 55
  else if 'a'.toNat ≤ c ∧ c ≤ 'f'.toNat then c - 87
  else 0

/-- `ByteArray::decodeHex`, src/bytearray.cpp lines 141-160: `⌊n/2⌋` output
bytes, each combining a high and a low nibble; an odd trailing nibble is
dropped. -/
def decodeHex (l : List Nat) : List Nat :=
  (List.range (l.length / 2)).map
    (fun i => (hexVal (l.getD (2 * i) 0) <<< 4) ||| hexVal (l.getD (2 * i + 1) 0))

/-- The transport decoding at the head of `DataBlock::decompress`,
src/libxisf.cpp lines 124-129. -/
def transportDecode (input : List Nat) (encoding : List Char) : List Nat :=
  if encoding = "base64".data then decodeBase64 input
  else if encoding = "base16".data then decodeHex input
  else input

/-- One destination region of the decompress loops: exactly `expected` bytes
(`block.second`), holding the codec's output truncated or zero-padded — the
destination buffer was zero-initialized by `resize`. -/
def regionBytes (out : List Nat) (expected : Nat) : List Nat :=
  out.take expected ++ List.replicate (expected - out.length) 0

/-- The Zlib branch of `DataBlock::decompress`, src/libxisf.cpp lines 139-152:
`::uncompress` — modelled as an oracle from the compressed slice and the
destination capacity to a status and the bytes written — is invoked per
sub-block and the pointers advance, but the returned status is never
inspected. -/
def zlibLoopModel (uncompressOracle : List Nat → Nat → Int × List Nat) :
    List Nat → List (Nat × Nat) → Nat → List Nat
  | _, [], _ => []
  | src, blk :: rest, off =>
      regionBytes (uncompressOracle ((src.drop off).take blk.1) blk.2).2 blk.2
        ++ zlibLoopModel uncompressOracle src rest (off + blk.1)

/-- The LZ4/LZ4HC branch, src/libxisf.cpp lines 153-167: a negative
`LZ4_decompress_safe` return aborts with an error. -/
def lz4LoopModel (lz4Oracle : List Nat → Nat → Int × List Nat) :
    List Nat → List (Nat × Nat) → Nat → Except String (List Nat)
  | _, [], _ => .ok []
  | src, blk :: rest, off =>
      if (lz4Oracle ((src.drop off).take blk.1) blk.2).1 < 0 then
        .error "LZ4 decompression failed"
      else
        match lz4LoopModel lz4Oracle src rest (off + blk.1) with
        | .error e => .error e
        | .ok tail =>
            .ok (regionBytes (lz4Oracle ((src.drop off).take blk.1) blk.2).2 blk.2
                  ++ tail)

/-- The ZSTD branch, src/libxisf.cpp lines 168-186 under `HAVE_ZSTD`:
`ZSTD_isError` on the return — the oracle's Boolean — aborts with an
error. -/
def zstdLoopModel (zstdOracle : List Nat → Nat → Bool × List Nat) :
    List Nat → List (Nat × Nat) → Nat → Except String (List Nat)
  | _, [], _ => .ok []
  | src, blk :: rest, off =>
      if (zstdOracle ((src.drop off).take blk.1) blk.2).1 then
        .error "ZSTD decompression failed"
      else
        match zstdLoopModel zstdOracle src rest (off + blk.1) with
        | .error e => .error e
        | .ok tail =>
            .ok (regionBytes (zstdOracle ((src.drop off).take blk.1) blk.2).2 blk.2
                  ++ tail)

/-- `DataBlock::decompress`, src/libxisf.cpp lines 122-193, with the codec
primitives as oracle parameters (the codecs are external collaborators,
spec 1): transport-decode, default the sub-block list to one implicit entry,
run the codec loop into the zero-initialized `uncompressedSize`-byte buffer,
clear the sub-blocks, undo the byte shuffle, and mark the block resident
(`attachmentPos = 0`). -/
def decompressModel (zlibOracle lz4Oracle : List Nat → Nat → Int × List Nat)
    (zstdOracle : List Nat → Nat → Bool × List Nat)
    (db : DataBlock) (input : List Nat) (encoding : List Char) :
    Except String DataBlock :=
  let tmp := transportDecode input encoding
  let blocks := if db.subblocks.length = 0 then [(tmp.length, db.uncompressedSize)]
                else db.subblocks
  match db.codec with
  | .None =>
      .ok { db with data := byteUnshuffle tmp db.byteShuffling,
                    subblocks := [], attachmentPos := 0 }
  | .Zlib =>
      .ok { db with
        data := byteUnshuffle
          (regionBytes (zlibLoopModel zlibOracle tmp blocks 0)
            db.uncompressedSize) db.byteShuffling,
        subblocks := [], attachmentPos := 0 }
  | .LZ4 | .LZ4HC =>
      match lz4LoopModel lz4Oracle tmp blocks 0 with
      | .error e => .error e
      | .ok raw =>
          .ok { db with
            data := byteUnshuffle (regionBytes raw db.uncompressedSize)
              db.byteShuffling,
            subblocks := [], attachmentPos := 0 }
  | .ZSTD =>
      match zstdLoopModel zstdOracle tmp blocks 0 with
      | .error e => .error e
      | .ok raw =>
          .ok { db with
            data := byteUnshuffle (regionBytes raw db.uncompressedSize)
              db.byteShuffling,
            subblocks := [], attachmentPos := 0 }

/-- C9: the Zlib branch of `DataBlock::decompress` cannot fail.  Whatever the
`::uncompress` oracle reports — in particular any non-zero status on any
sub-block — the function returns `ok` with the assembled (possibly
zero-padded garbage) buffer; the status is never inspected, so a failing
zlib decompression never raises the error the claim requires.  (The LZ4 and
ZSTD branches do abort on their failure codes.) -/
theorem zlib_decompress_ignores_status
    (zlibOracle lz4Oracle : List Nat → Nat → Int × List Nat)
    (zstdOracle : List Nat → Nat → Bool × List Nat)
    (db : DataBlock) (input : List Nat) (encoding : List Char)
    (hz : db.codec = .Zlib) :
    decompressModel zlibOracle lz4Oracle zstdOracle db input encoding
      = .ok { db with
          data := byteUnshuffle
            (regionBytes
              (zlibLoopModel zlibOracle (transportDecode input encoding)
                (if db.subblocks.length = 0
                 then [((transportDecode input encoding).length,
                        db.uncompressedSize)]
                 else db.subblocks) 0)
              db.uncompressedSize) db.byteShuffling,
          subblocks := [], attachmentPos := 0 } := by
  unfold decompressModel
  rw [hz]

/-- Witness for C9: a two-byte input, no sub-blocks, `uncompressedSize = 4`,
and an `::uncompress` oracle that reports status −3 (`Z_DATA_ERROR`) having
written a single byte: decompress still returns `ok` with `[1, 0, 0, 0]`. -/
theorem zlib_decompress_ignores_status_witness :
    decompressModel (fun _ _ => (-3, [1])) (fun _ _ => (0, []))
        (fun _ _ => (false, []))
        { codec := .Zlib, uncompressedSize := 4 } [9, 9] []
      = .ok { codec := .Zlib, uncompressedSize := 4, data := [1, 0, 0, 0],
              subblocks := [], attachmentPos := 0 } := by
  rw [zlib_decompress_ignores_status (fun _ _ => (-3, [1])) (fun _ _ => (0, []))
    (fun _ _ => (false, [])) { codec := .Zlib, uncompressedSize := 4 } [9, 9] []
    rfl]
  rfl

end LibXISF
